import Mathlib

/-!
Verification development for the pyscan-pro static inspector
(src/pyscanpro/pyscan.py).

The file shallowly embeds the core of the tool in Lean:
a tagged-union grammar-tree node type covering the node kinds the
`Analyzer` visitor dispatches on, the single-pass traversal that
collects the binding set (`defined`) and the use set (`used`), the
undefined-name computation, the per-file orchestrator `analyze_file`,
the line counter, the syntax validator and the scan orchestrator `main`.

External effects are modelled as explicit inputs: the outcome of
`py_compile.compile` is a `CompileResult`, the outcome of `ast.parse`
is an `Option PyModule`, the raw readable content of a file is a
`ReadResult`, the runtime built-in namespace `dir(__builtins__)` is a
`List String` parameter, and the (unspecified) iteration order of the
Python `set` `used` is an order oracle `ord : List String → List String`
constrained to enumerate the set (`(ord l).Perm l`).
-/

/-- Expression context, mirroring `ast.Load` / `ast.Store` / `ast.Del`. -/
inductive Ctx where
  | load
  | store
  | del
deriving DecidableEq, Repr

/-- Grammar-tree nodes, a tagged union of the node kinds relevant to the
`Analyzer` visitor: `FunctionDef`, `ClassDef`, `Assign`, `Import`,
`ImportFrom`, expression statements, `Name`, `Call`, `Tuple`, constants
and `pass`.  Import aliases carry the original name and the optional
`as` name, exactly as `ast.alias(name, asname)` does.  Function
parameters are `ast.arg` nodes, which contain the parameter as a plain
string attribute rather than as a `Name` child, so they are kept as a
`List String`. -/
inductive Node where
  | functionDef (name : String) (params : List String) (body : List Node)
  | classDef (name : String) (bases : List Node) (body : List Node)
  | assign (targets : List Node) (value : Node)
  | importStmt (names : List (String × Option String))
  | importFrom (modname : String) (names : List (String × Option String))
  | exprStmt (e : Node)
  | name (id : String) (ctx : Ctx)
  | call (func : Node) (args : List Node)
  | tuple (elts : List Node)
  | constant
  | pass

/-- A module is the statement list of `ast.Module.body`. -/
abbrev PyModule := List Node

/-- The two per-file sets built by the traversal: `defined` and `used`
in `find_undefined_names`.  Python sets are modelled as duplicate-free
lists; only membership matters. -/
structure AState where
  defined : List String
  used : List String
deriving DecidableEq, Repr

/-- `set.add`: insert a name if it is not already present. -/
def addName (n : String) (l : List String) : List String :=
  if n ∈ l then l else n :: l

/-- `defined.add(n)`. -/
def addDefined (n : String) (st : AState) : AState :=
  ⟨addName n st.defined, st.used⟩

/-- `used.add(n)`. -/
def addUsed (n : String) (st : AState) : AState :=
  ⟨st.defined, addName n st.used⟩

/-- `n.name.split(".")[0]`: the first path segment of a dotted module
name, i.e. the characters before the first dot. -/
def firstSeg (s : String) : String :=
  String.mk (s.data.takeWhile (fun c => c ≠ Char.ofNat 46))

/-- `name.startswith("__")`: the first two characters are underscores. -/
def isDunder (s : String) : Bool :=
  s.data.take 2 = [Char.ofNat 95, Char.ofNat 95]

/-- One step of the `visit_Assign` target loop: `if isinstance(t,
ast.Name): defined.add(t.id)`. -/
def assignTarget (acc : AState) (t : Node) : AState :=
  match t with
  | .name id _ => addDefined id acc
  | _ => acc

/-- One step of the `visit_Import` loop: bind the first path segment of
the original imported name; the `asname` is ignored. -/
def importAdd (acc : AState) (p : String × Option String) : AState :=
  addDefined (firstSeg p.1) acc

/-- One step of the `visit_ImportFrom` loop: bind the original imported
symbol name; the `asname` is ignored. -/
def importFromAdd (acc : AState) (p : String × Option String) : AState :=
  addDefined p.1 acc

mutual

/-- One step of `Analyzer().visit`.  Overridden methods:
`visit_FunctionDef` adds the definition name then `generic_visit`s the
children (the `ast.arg` parameter nodes contribute nothing, then the
body); `visit_Assign` adds every target that is a direct `Name` then
`generic_visit`s targets and value; `visit_Import` adds the first
segment of each original imported name (no recursion); ditto
`visit_ImportFrom` with the full original name; `visit_Name` adds the
identifier to the use set when its context is `Load`.  Every other node
kind falls through to `generic_visit`, which visits the children: in
particular `ClassDef` has no override, so its name is never recorded and
only its bases and body are walked. -/
def visit (node : Node) (st : AState) : AState :=
  match node with
  | .functionDef nm _params body => visitList body (addDefined nm st)
  | .classDef _nm bases body => visitList body (visitList bases st)
  | .assign targets value =>
      visit value (visitList targets (targets.foldl assignTarget st))
  | .importStmt names => names.foldl importAdd st
  | .importFrom _mod names => names.foldl importFromAdd st
  | .exprStmt e => visit e st
  | .name id ctx =>
      match ctx with
      | .load => addUsed id st
      | _ => st
  | .call func args => visitList args (visit func st)
  | .tuple elts => visitList elts st
  | .constant => st
  | .pass => st

/-- `generic_visit` over a child list, left to right. -/
def visitList (nodes : List Node) (st : AState) : AState :=
  match nodes with
  | [] => st
  | n :: rest => visitList rest (visit n st)

end

/-- `Analyzer().visit(tree)` on an `ast.Module`: there is no
`visit_Module` override, so `generic_visit` walks the body with both
sets initially empty. -/
def runAnalyzer (m : PyModule) : AState :=
  visitList m ⟨[], []⟩

/-- The filter applied to each used name: kept (reported as undefined)
iff it is not in `defined`, not in `dir(__builtins__)`, and does not
start with a double underscore. -/
def undefFilter (defined builtins : List String) (nm : String) : Bool :=
  !(decide (nm ∈ defined)) && !(decide (nm ∈ builtins)) && !(isDunder nm)

/-- `find_undefined_names`: parse the file (a parse failure is caught
and yields `[]`), run the `Analyzer` traversal, then iterate the `used`
set (in the order the oracle `ord` enumerates it) collecting the names
that pass `undefFilter`. -/
def find_undefined_names (ord : List String → List String)
    (builtins : List String) (parseResult : Option PyModule) : List String :=
  match parseResult with
  | none => []
  | some tree =>
      let st := runAnalyzer tree
      (ord st.used).filter (undefFilter st.defined builtins)

/-- The line field of a diagnostic: a line number from the parse error,
or the explicit unknown sentinel `"?"` used by the undefined-name
diagnostic. -/
inductive LineVal where
  | num (n : Nat)
  | unknown
deriving DecidableEq, Repr

/-- A reported problem: `{"file": ..., "line": ..., "message": ...}`. -/
structure Diagnostic where
  file : String
  line : LineVal
  message : String
deriving DecidableEq, Repr

/-- The outcome of `py_compile.compile(file_path, doraise=True)`:
success, or a `PyCompileError` whose `exc_value` carries the line
number and message of the first (and only reported) error. -/
inductive CompileResult where
  | ok
  | err (lineno : Nat) (msg : String)
deriving DecidableEq, Repr

/-- `check_syntax`: compile the file; on success return `None`, on
failure return one diagnostic built from the error's `lineno` and
`msg`. -/
def check_syntax (file_path : String) (r : CompileResult) : Option Diagnostic :=
  match r with
  | .ok => none
  | .err lineno msg => some ⟨file_path, .num lineno, msg⟩

/-- The single-quote character, used by Python's `repr` of a string. -/
def squo : String := String.singleton (Char.ofNat 39)

/-- Python `str` of a list of strings, as interpolated by the f-string
`f"Undefined names: \x7bundefined\x7d"`. -/
def pyListRepr (l : List String) : String :=
  "[" ++ String.intercalate ", " (l.map (fun s => squo ++ s ++ squo)) ++ "]"

/-- The message of an undefined-names diagnostic. -/
def undefMsg (l : List String) : String :=
  "Undefined names: " ++ pyListRepr l

/-- The readable content of a file: its decoded characters, where
`none` stands for a byte sequence the codec cannot decode (dropped by
`errors="ignore"`), or an I/O failure on `open`/read. -/
inductive ReadResult where
  | ok (content : List (Option Char))
  | ioError
deriving DecidableEq, Repr

/-- `errors="ignore"`: invalid byte sequences are dropped, the valid
characters are kept in order. -/
def decodeIgnore (content : List (Option Char)) : List Char :=
  content.filterMap id

/-- The newline character. -/
def nl : Char := Char.ofNat 10

/-- `f.readlines()`: split the text into lines, each line keeping its
trailing newline; a final fragment with no newline is still a line, and
empty text has no lines. -/
def pyReadlines (l : List Char) : List (List Char) :=
  match l with
  | [] => []
  | c :: rest =>
      if c = nl then [c] :: pyReadlines rest
      else
        match pyReadlines rest with
        | [] => [[c]]
        | line :: lines => (c :: line) :: lines

/-- `count_lines`: `len(f.readlines())` on the decoded content; any
exception (the bare `except`) yields 0. -/
def count_lines (r : ReadResult) : Nat :=
  match r with
  | .ok content => (pyReadlines (decodeIgnore content)).length
  | .ioError => 0

/-- Everything the scan can observe about one file: its readable
content, its `py_compile` outcome, and its `ast.parse` outcome (`none`
when parsing raises). -/
structure FileData where
  raw : ReadResult
  compile : CompileResult
  parse : Option PyModule

/-- `analyze_file`: run `check_syntax` first; if it yields a diagnostic
return just that (the binding/use analysis never runs).  Otherwise run
`find_undefined_names` and, if the list is non-empty, return one
diagnostic with the unknown-line sentinel and a message listing the
undefined names. -/
def analyze_file (ord : List String → List String) (builtins : List String)
    (file_path : String) (fd : FileData) : List Diagnostic :=
  match check_syntax file_path fd.compile with
  | some d => [d]
  | none =>
      let undefined := find_undefined_names ord builtins fd.parse
      if undefined = [] then []
      else [⟨file_path, .unknown, undefMsg undefined⟩]

/-- A directory snapshot: named files (with their observable data) and
named subdirectories. -/
inductive FSEntry where
  | file (nm : String) (data : FileData)
  | dir (nm : String) (entries : List FSEntry)

/-- `file.endswith(".py")`: the last three characters are `.py`. -/
def isPyName (nm : String) : Bool :=
  nm.data.reverse.take 3 = [Char.ofNat 121, Char.ofNat 112, Char.ofNat 46]

/-- `os.path.join(root, file)` with forward slashes. -/
def pathJoin (root nm : String) : String :=
  root ++ "/" ++ nm

mutual

/-- `get_python_files`: `os.walk` visits a directory's files first
(collecting those whose name ends with `.py`, joined to the walk root),
then descends into its subdirectories in order. -/
def get_python_files (folder : String) (entries : List FSEntry) :
    List (String × FileData) :=
  (entries.filterMap (fun e =>
    match e with
    | .file nm fd => if isPyName nm then some (pathJoin folder nm, fd) else none
    | .dir _ _ => none)) ++ walkSubdirs folder entries
termination_by (sizeOf entries, 1)

/-- The recursive part of the walk: visit each subdirectory. -/
def walkSubdirs (folder : String) (entries : List FSEntry) :
    List (String × FileData) :=
  match entries with
  | [] => []
  | .file _ _ :: rest => walkSubdirs folder rest
  | .dir nm sub :: rest =>
      get_python_files (pathJoin folder nm) sub ++ walkSubdirs folder rest
termination_by (sizeOf entries, 0)

end

mutual

/-- Whether a statement (or a statement nested below it) is a function
definition with the given name.  Function definitions can only nest
inside the bodies of other definitions in the modelled grammar. -/
def hasFD (n : String) (node : Node) : Bool :=
  match node with
  | .functionDef nm _ body => nm == n || hasFDList n body
  | .classDef _ _ body => hasFDList n body
  | _ => false

/-- `hasFD` over a statement list. -/
def hasFDList (n : String) (nodes : List Node) : Bool :=
  match nodes with
  | [] => false
  | x :: rest => hasFD n x || hasFDList n rest

end

/-- The aggregate result of a scan: file count, total line count, and
the collected diagnostics in discovery order. -/
structure ScanSummary where
  file_count : Nat
  total_lines : Nat
  diagnostics : List Diagnostic
deriving DecidableEq, Repr

/-- The body of `main`, from the point where the validated project path is known:
discover the files; if none are found print a message and return early
(no summary); otherwise count files and lines, analyze every file, and
assemble the summary that the report prints. -/
def mainScan (ord : List String → List String) (builtins : List String)
    (project_path : String) (tree : List FSEntry) : Option ScanSummary :=
  let files := get_python_files project_path tree
  if files.isEmpty then none
  else
    some ⟨files.length,
      (files.map (fun f => count_lines f.2.raw)).sum,
      files.flatMap (fun f => analyze_file ord builtins f.1 f.2)⟩

/-! ## Basic lemmas about the traversal state -/

theorem mem_addName {a n : String} {l : List String} :
    a ∈ addName n l ↔ a = n ∨ a ∈ l := by
  unfold addName
  by_cases h : n ∈ l
  · simp only [if_pos h]
    constructor
    · exact Or.inr
    · rintro (rfl | ha)
      · exact h
      · exact ha
  · simp [if_neg h]

theorem subset_addName {n : String} {l : List String} : l ⊆ addName n l := by
  intro a ha
  exact mem_addName.mpr (Or.inr ha)

theorem mem_addName_self {n : String} {l : List String} : n ∈ addName n l :=
  mem_addName.mpr (Or.inl rfl)

theorem addDefined_defined {n : String} {st : AState} :
    (addDefined n st).defined = addName n st.defined := rfl

theorem addDefined_used {n : String} {st : AState} :
    (addDefined n st).used = st.used := rfl

theorem assignTarget_defined_subset (acc : AState) (t : Node) :
    acc.defined ⊆ (assignTarget acc t).defined := by
  cases t <;> first
    | exact subset_addName
    | exact fun _ h => h

theorem foldl_defined_subset {α : Type} (f : AState → α → AState)
    (hf : ∀ acc t, acc.defined ⊆ (f acc t).defined) (l : List α) (st : AState) :
    st.defined ⊆ (l.foldl f st).defined := by
  induction l generalizing st with
  | nil => exact fun _ h => h
  | cons x rest ih => exact fun a ha => ih (f st x) (hf st x ha)

mutual

theorem visit_defined_subset (node : Node) (st : AState) :
    st.defined ⊆ (visit node st).defined := by
  cases node with
  | functionDef nm params body =>
      intro a ha
      exact visitList_defined_subset body (addDefined nm st)
        (subset_addName ha)
  | classDef nm bases body =>
      intro a ha
      exact visitList_defined_subset body _
        (visitList_defined_subset bases st ha)
  | assign targets value =>
      intro a ha
      exact visit_defined_subset value _
        (visitList_defined_subset targets _
          (foldl_defined_subset assignTarget assignTarget_defined_subset
            targets st ha))
  | importStmt names =>
      exact foldl_defined_subset importAdd
        (fun acc p => subset_addName) names st
  | importFrom modname names =>
      exact foldl_defined_subset importFromAdd
        (fun acc p => subset_addName) names st
  | exprStmt e => exact visit_defined_subset e st
  | name id ctx =>
      cases ctx <;> exact fun _ h => h
  | call func args =>
      intro a ha
      exact visitList_defined_subset args _ (visit_defined_subset func st ha)
  | tuple elts => exact visitList_defined_subset elts st
  | constant => exact fun _ h => h
  | pass => exact fun _ h => h

theorem visitList_defined_subset (nodes : List Node) (st : AState) :
    st.defined ⊆ (visitList nodes st).defined := by
  cases nodes with
  | nil => exact fun _ h => h
  | cons n rest =>
      intro a ha
      exact visitList_defined_subset rest _ (visit_defined_subset n st ha)

end

/-! ## The binding set captures every function definition name -/

mutual

theorem visit_hasFD (n : String) (node : Node) (st : AState)
    (h : hasFD n node = true) : n ∈ (visit node st).defined := by
  cases node with
  | functionDef nm params body =>
      rw [hasFD] at h
      rcases Bool.or_eq_true_iff.mp h with h1 | h2
      · have : nm = n := by simpa using h1
        subst this
        exact visitList_defined_subset body (addDefined nm st) mem_addName_self
      · exact visitList_hasFD n body (addDefined nm st) h2
  | classDef nm bases body =>
      rw [hasFD] at h
      exact visitList_hasFD n body (visitList bases st) h
  | assign targets value => simp [hasFD] at h
  | importStmt names => simp [hasFD] at h
  | importFrom modname names => simp [hasFD] at h
  | exprStmt e => simp [hasFD] at h
  | name id ctx => simp [hasFD] at h
  | call func args => simp [hasFD] at h
  | tuple elts => simp [hasFD] at h
  | constant => simp [hasFD] at h
  | pass => simp [hasFD] at h

theorem visitList_hasFD (n : String) (nodes : List Node) (st : AState)
    (h : hasFDList n nodes = true) : n ∈ (visitList nodes st).defined := by
  cases nodes with
  | nil => simp [hasFDList] at h
  | cons x rest =>
      rw [hasFDList] at h
      rcases Bool.or_eq_true_iff.mp h with h1 | h2
      · exact visitList_defined_subset rest (visit x st) (visit_hasFD n x st h1)
      · exact visitList_hasFD n rest (visit x st) h2

end

/-! ## Characterizing the reported undefined names -/

theorem undefFilter_eq_true {defined builtins : List String} {nm : String} :
    undefFilter defined builtins nm = true ↔
      nm ∉ defined ∧ nm ∉ builtins ∧ isDunder nm = false := by
  simp [undefFilter, and_assoc]

theorem mem_find_undefined_names {ord : List String → List String}
    (hord : ∀ l, (ord l).Perm l) {builtins : List String} {m : PyModule}
    {a : String} :
    a ∈ find_undefined_names ord builtins (some m) ↔
      a ∈ (runAnalyzer m).used ∧ a ∉ (runAnalyzer m).defined ∧
        a ∉ builtins ∧ isDunder a = false := by
  unfold find_undefined_names
  rw [List.mem_filter, (hord (runAnalyzer m).used).mem_iff, undefFilter_eq_true]

theorem defined_not_mem_find_undefined_names {ord : List String → List String}
    (hord : ∀ l, (ord l).Perm l) {builtins : List String} {m : PyModule}
    {a : String} (h : a ∈ (runAnalyzer m).defined) :
    a ∉ find_undefined_names ord builtins (some m) := by
  intro hmem
  exact ((mem_find_undefined_names hord).mp hmem).2.1 h

/-! ## Counting the discovered files -/

mutual

/-- Specification-side count: how many matching-extension files one
entry contributes to a recursive walk. -/
def entryPyCount (e : FSEntry) : Nat :=
  match e with
  | .file nm _ => if isPyName nm then 1 else 0
  | .dir _ sub => listPyCount sub

/-- Specification-side count of matching-extension files reachable from
a list of entries by recursive walk. -/
def listPyCount (entries : List FSEntry) : Nat :=
  match entries with
  | [] => 0
  | e :: rest => entryPyCount e + listPyCount rest

end

/-- Count contributed by the subdirectory entries only. -/
def subdirsPyCount (entries : List FSEntry) : Nat :=
  match entries with
  | [] => 0
  | .file _ _ :: rest => subdirsPyCount rest
  | .dir _ sub :: rest => listPyCount sub + subdirsPyCount rest

theorem pyHere_length (folder : String) (entries : List FSEntry) :
    ((entries.filterMap (fun e =>
      match e with
      | .file nm fd => if isPyName nm then some (pathJoin folder nm, fd) else none
      | .dir _ _ => none)).length + subdirsPyCount entries) = listPyCount entries := by
  induction entries with
  | nil => simp [subdirsPyCount, listPyCount]
  | cons e rest ih =>
      cases e with
      | file nm fd =>
          by_cases h : isPyName nm <;>
            simp [List.filterMap_cons, h, subdirsPyCount, listPyCount,
              entryPyCount] <;>
            omega
      | dir nm sub =>
          simp only [List.filterMap_cons, subdirsPyCount, listPyCount,
            entryPyCount]
          omega

mutual

theorem get_python_files_length (folder : String) (entries : List FSEntry) :
    (get_python_files folder entries).length = listPyCount entries := by
  rw [get_python_files, List.length_append,
    walkSubdirs_length folder entries, pyHere_length folder entries]
termination_by (sizeOf entries, 1)

theorem walkSubdirs_length (folder : String) (entries : List FSEntry) :
    (walkSubdirs folder entries).length = subdirsPyCount entries := by
  match entries with
  | [] =>
      rw [walkSubdirs, subdirsPyCount]
      rfl
  | .file nm fd :: rest =>
      rw [walkSubdirs, subdirsPyCount]
      exact walkSubdirs_length folder rest
  | .dir nm sub :: rest =>
      rw [walkSubdirs, subdirsPyCount, List.length_append,
        get_python_files_length (pathJoin folder nm) sub,
        walkSubdirs_length folder rest]
termination_by (sizeOf entries, 0)

end

/-! ## Counting newline-delimited records -/

/-- Specification-side count of newline-delimited records: the number
of newline characters, plus one for a final fragment not terminated by
a newline. -/
def recordCount (l : List Char) : Nat :=
  l.count nl + (if l.getLast? = some nl ∨ l = [] then 0 else 1)

theorem pyReadlines_ne_nil {l : List Char} (h : l ≠ []) : pyReadlines l ≠ [] := by
  match l with
  | [] => exact absurd rfl h
  | c :: rest =>
      rw [pyReadlines]
      by_cases hc : c = nl
      · simp [hc]
      · simp only [hc, if_neg, if_false]
        cases pyReadlines rest <;> simp

theorem pyReadlines_length (l : List Char) :
    (pyReadlines l).length = recordCount l := by
  induction l with
  | nil => simp [pyReadlines, recordCount]
  | cons c rest ih =>
      by_cases hc : c = nl
      · subst hc
        rw [pyReadlines, if_pos rfl, List.length_cons, ih, recordCount, recordCount]
        cases rest with
        | nil => simp
        | cons c2 rest2 =>
            rw [List.getLast?_cons_cons]
            simp only [List.count_cons, List.cons_ne_nil, or_false]
            have : (nl == nl) = true := by simp
            simp [this]
            omega
      · rw [pyReadlines, if_neg hc]
        cases hrest : rest with
        | nil =>
            simp only [hrest] at *
            rw [pyReadlines]
            simp [recordCount, List.count_cons, hc]
        | cons c2 rest2 =>
            have hne : pyReadlines rest ≠ [] := by
              rw [hrest]; exact pyReadlines_ne_nil (by simp)
            rw [← hrest]
            cases hpr : pyReadlines rest with
            | nil => exact absurd hpr hne
            | cons line lines =>
                simp only [List.length_cons]
                have := ih
                rw [hpr] at this
                simp only [List.length_cons] at this
                rw [this]
                rw [recordCount, recordCount, hrest, List.getLast?_cons_cons,
                  ← hrest]
                simp only [List.count_cons, hrest, List.cons_ne_nil, or_false]
                have hb : (c == nl) = false := by simp [hc]
                simp [hb]

/-! ## Per-file analysis case lemmas -/

theorem analyze_file_of_syntax_err {ord : List String → List String}
    {builtins : List String} {file_path : String} {fd : FileData}
    {d : Diagnostic} (h : check_syntax file_path fd.compile = some d) :
    analyze_file ord builtins file_path fd = [d] := by
  unfold analyze_file
  rw [h]

theorem analyze_file_of_syntax_ok {ord : List String → List String}
    {builtins : List String} {file_path : String} {fd : FileData}
    (h : fd.compile = .ok) :
    analyze_file ord builtins file_path fd =
      (if find_undefined_names ord builtins fd.parse = [] then []
       else [⟨file_path, .unknown,
         undefMsg (find_undefined_names ord builtins fd.parse)⟩]) := by
  unfold analyze_file
  rw [h]
  rfl

theorem analyze_file_length_le_one (ord : List String → List String)
    (builtins : List String) (file_path : String) (fd : FileData) :
    (analyze_file ord builtins file_path fd).length ≤ 1 := by
  unfold analyze_file
  cases check_syntax file_path fd.compile with
  | some d => simp
  | none =>
      by_cases h : find_undefined_names ord builtins fd.parse = [] <;> simp [h]

/-! ## Equivalence of two runs modulo set-iteration order -/

/-- Two diagnostics are equal up to the documented non-determinism:
same file and line, and either literally equal messages or messages
rendering two enumerations of the same set of undefined names. -/
def diagEquiv (d₁ d₂ : Diagnostic) : Prop :=
  d₁.file = d₂.file ∧ d₁.line = d₂.line ∧
    (d₁.message = d₂.message ∨
      ∃ l₁ l₂, l₁.Perm l₂ ∧ d₁.message = undefMsg l₁ ∧ d₂.message = undefMsg l₂)

/-- Two summaries are identical up to the documented non-determinism:
same counts and pointwise-equivalent diagnostics. -/
def summaryEquiv (s₁ s₂ : ScanSummary) : Prop :=
  s₁.file_count = s₂.file_count ∧ s₁.total_lines = s₂.total_lines ∧
    List.Forall₂ diagEquiv s₁.diagnostics s₂.diagnostics

/-- Equivalence of two scan outcomes: both absent, or both present and
equivalent. -/
def scanEquiv : Option ScanSummary → Option ScanSummary → Prop
  | none, none => True
  | some s₁, some s₂ => summaryEquiv s₁ s₂
  | _, _ => False

theorem find_undefined_names_perm {ord₁ ord₂ : List String → List String}
    (h₁ : ∀ l, (ord₁ l).Perm l) (h₂ : ∀ l, (ord₂ l).Perm l)
    (builtins : List String) (parseResult : Option PyModule) :
    (find_undefined_names ord₁ builtins parseResult).Perm
      (find_undefined_names ord₂ builtins parseResult) := by
  cases parseResult with
  | none => exact List.Perm.refl _
  | some m =>
      unfold find_undefined_names
      exact ((h₁ (runAnalyzer m).used).trans
        (h₂ (runAnalyzer m).used).symm).filter _

theorem analyze_file_equiv {ord₁ ord₂ : List String → List String}
    (h₁ : ∀ l, (ord₁ l).Perm l) (h₂ : ∀ l, (ord₂ l).Perm l)
    (builtins : List String) (file_path : String) (fd : FileData) :
    List.Forall₂ diagEquiv (analyze_file ord₁ builtins file_path fd)
      (analyze_file ord₂ builtins file_path fd) := by
  cases hc : fd.compile with
  | err lineno msg =>
      rw [analyze_file_of_syntax_err (d := ⟨file_path, .num lineno, msg⟩),
        analyze_file_of_syntax_err (d := ⟨file_path, .num lineno, msg⟩)]
      · exact List.Forall₂.cons ⟨rfl, rfl, Or.inl rfl⟩ List.Forall₂.nil
      · rw [hc]; rfl
      · rw [hc]; rfl
  | ok =>
      rw [analyze_file_of_syntax_ok hc, analyze_file_of_syntax_ok hc]
      have hperm := find_undefined_names_perm h₁ h₂ builtins fd.parse
      by_cases he : find_undefined_names ord₁ builtins fd.parse = []
      · rw [if_pos he, if_pos (by rw [he] at hperm; exact hperm.symm.eq_nil)]
        exact List.Forall₂.nil
      · have he₂ : find_undefined_names ord₂ builtins fd.parse ≠ [] := by
          intro h0
          rw [h0] at hperm
          exact he hperm.eq_nil
        rw [if_neg he, if_neg he₂]
        exact List.Forall₂.cons
          ⟨rfl, rfl, Or.inr ⟨_, _, hperm, rfl, rfl⟩⟩ List.Forall₂.nil

theorem flatMap_analyze_equiv {ord₁ ord₂ : List String → List String}
    (h₁ : ∀ l, (ord₁ l).Perm l) (h₂ : ∀ l, (ord₂ l).Perm l)
    (builtins : List String) (files : List (String × FileData)) :
    List.Forall₂ diagEquiv
      (files.flatMap (fun f => analyze_file ord₁ builtins f.1 f.2))
      (files.flatMap (fun f => analyze_file ord₂ builtins f.1 f.2)) := by
  induction files with
  | nil => exact List.Forall₂.nil
  | cons f rest ih =>
      rw [List.flatMap_cons, List.flatMap_cons]
      exact List.rel_append (analyze_file_equiv h₁ h₂ builtins f.1 f.2) ih

theorem mainScan_equiv {ord₁ ord₂ : List String → List String}
    (h₁ : ∀ l, (ord₁ l).Perm l) (h₂ : ∀ l, (ord₂ l).Perm l)
    (builtins : List String) (project_path : String) (tree : List FSEntry) :
    scanEquiv (mainScan ord₁ builtins project_path tree)
      (mainScan ord₂ builtins project_path tree) := by
  unfold mainScan
  by_cases h : (get_python_files project_path tree).isEmpty
  · rw [if_pos h, if_pos h]
    exact trivial
  · rw [if_neg h, if_neg h]
    exact ⟨rfl, rfl, flatMap_analyze_equiv h₁ h₂ builtins _⟩

/-! ## Claim theorems -/

/-- C1 counterexample: the `Analyzer` has no `visit_ClassDef` override,
so in the module `class A: pass` followed by a load of `A`, the
class-definition name `A` is reported as undefined (with no builtins
containing it), contradicting the claim that a class definition name is
added to the binding set and never reported. -/
theorem c1_counterexample :
    find_undefined_names id []
      (some [.classDef "A" [] [.pass], .exprStmt (.name "A" .load)]) =
      ["A"] := by
  decide

/-- C1 (amended): a name appearing as a function definition name — at
any nesting depth — is added to the binding set, and is therefore never
reported as undefined; class definition names are not added (see the
counterexample). -/
theorem c1_amended {ord : List String → List String}
    (hord : ∀ l, (ord l).Perm l) (builtins : List String) (m : PyModule)
    (n : String) (h : hasFDList n m = true) :
    n ∈ (runAnalyzer m).defined ∧
      n ∉ find_undefined_names ord builtins (some m) := by
  have hd : n ∈ (runAnalyzer m).defined := visitList_hasFD n m ⟨[], []⟩ h
  exact ⟨hd, defined_not_mem_find_undefined_names hord hd⟩

/-- C1 witness: a function `f` defined inside a class body and used at
top level is in the binding set and not reported. -/
theorem c1_witness :
    "f" ∈ (runAnalyzer [.classDef "C" [] [.functionDef "f" [] []],
        .exprStmt (.name "f" .load)]).defined ∧
      "f" ∉ find_undefined_names id []
        (some [.classDef "C" [] [.functionDef "f" [] []],
          .exprStmt (.name "f" .load)]) :=
  c1_amended (fun l => List.Perm.refl l) []
    [.classDef "C" [] [.functionDef "f" [] []],
      .exprStmt (.name "f" .load)] "f" (by decide)

/-- C2: if the syntax validator produces a diagnostic the per-file
analyzer returns exactly that diagnostic — independently of the file's
parse tree, i.e. the binding/use analysis is never consulted — and in
every case the per-file analyzer produces at most one diagnostic. -/
theorem c2_short_circuit (ord : List String → List String)
    (builtins : List String) (file_path : String) (fd : FileData) :
    (∀ d, check_syntax file_path fd.compile = some d →
      ∀ parse₂ : Option PyModule,
        analyze_file ord builtins file_path fd = [d] ∧
        analyze_file ord builtins file_path ⟨fd.raw, fd.compile, parse₂⟩ = [d]) ∧
      (analyze_file ord builtins file_path fd).length ≤ 1 := by
  refine ⟨fun d hd parse₂ => ⟨analyze_file_of_syntax_err hd, analyze_file_of_syntax_err hd⟩,
    analyze_file_length_le_one ord builtins file_path fd⟩

/-- C2 witness: a file failing compilation at line 3 yields exactly the
syntax diagnostic, whatever its parse tree says. -/
theorem c2_witness :
    analyze_file id [] "a.py"
        ⟨.ioError, .err 3 "invalid syntax", some [.exprStmt (.name "x" .load)]⟩ =
        [⟨"a.py", .num 3, "invalid syntax"⟩] ∧
      analyze_file id [] "a.py"
        ⟨.ioError, .err 3 "invalid syntax", none⟩ =
        [⟨"a.py", .num 3, "invalid syntax"⟩] :=
  ((c2_short_circuit id [] "a.py"
      ⟨.ioError, .err 3 "invalid syntax", some [.exprStmt (.name "x" .load)]⟩).1
    ⟨"a.py", .num 3, "invalid syntax"⟩ rfl none)

/-- C3: for a syntactically valid file, a name is reported as undefined
iff it is in the use set, not in the binding set, not in the runtime
built-in set, and not a dunder name; the analyzer yields no diagnostic
exactly when that set is empty, and otherwise yields one diagnostic
with the unknown-line sentinel whose message lists every undefined
name. -/
theorem c3_undefined_set (ord : List String → List String)
    (hord : ∀ l, (ord l).Perm l) (builtins : List String)
    (file_path : String) (fd : FileData) (m : PyModule)
    (hc : fd.compile = .ok) (hp : fd.parse = some m) :
    (∀ a, a ∈ find_undefined_names ord builtins fd.parse ↔
        (a ∈ (runAnalyzer m).used ∧ a ∉ (runAnalyzer m).defined ∧
          a ∉ builtins ∧ isDunder a = false)) ∧
      (find_undefined_names ord builtins fd.parse = [] →
        analyze_file ord builtins file_path fd = []) ∧
      (find_undefined_names ord builtins fd.parse ≠ [] →
        analyze_file ord builtins file_path fd =
          [⟨file_path, .unknown,
            undefMsg (find_undefined_names ord builtins fd.parse)⟩]) := by
  refine ⟨fun a => ?_, fun he => ?_, fun hne => ?_⟩
  · rw [hp]
    exact mem_find_undefined_names hord
  · rw [analyze_file_of_syntax_ok hc, if_pos he]
  · rw [analyze_file_of_syntax_ok hc, if_neg hne]

/-- C3 witness: in a file calling `print(lprint)` with `print` a
builtin, exactly `lprint` is undefined and one unknown-line diagnostic
is produced. -/
theorem c3_witness :
    ("lprint" ∈ find_undefined_names id ["print"]
        (some [.exprStmt (.call (.name "print" .load) [.name "lprint" .load])]) ↔
      ("lprint" ∈ (runAnalyzer [.exprStmt (.call (.name "print" .load)
          [.name "lprint" .load])]).used ∧
        "lprint" ∉ (runAnalyzer [.exprStmt (.call (.name "print" .load)
          [.name "lprint" .load])]).defined ∧
        "lprint" ∉ ["print"] ∧ isDunder "lprint" = false)) ∧
      analyze_file id ["print"] "a.py"
        ⟨.ioError, .ok,
          some [.exprStmt (.call (.name "print" .load) [.name "lprint" .load])]⟩ =
        [⟨"a.py", .unknown, undefMsg (find_undefined_names id ["print"]
          (some [.exprStmt (.call (.name "print" .load) [.name "lprint" .load])]))⟩] :=
  ⟨(c3_undefined_set id (fun l => List.Perm.refl l) ["print"] "a.py"
      ⟨.ioError, .ok, some [.exprStmt (.call (.name "print" .load)
        [.name "lprint" .load])]⟩ _ rfl rfl).1 "lprint",
    (c3_undefined_set id (fun l => List.Perm.refl l) ["print"] "a.py"
      ⟨.ioError, .ok, some [.exprStmt (.call (.name "print" .load)
        [.name "lprint" .load])]⟩ _ rfl rfl).2.2 (by decide)⟩

/-- C4 counterexample: on an empty directory the orchestrator returns
early with no summary at all — `none`, not the zero summary the claim
describes. -/
theorem c4_counterexample :
    mainScan id [] "proj" [] = none ∧
      mainScan id [] "proj" [] ≠ some ⟨0, 0, []⟩ := by
  have h : mainScan id [] "proj" [] = none := by
    simp [mainScan, get_python_files, walkSubdirs]
  exact ⟨h, by rw [h]; exact fun hc => Option.noConfusion hc⟩

/-- C4 (amended): when discovery finds no matching files the
orchestrator completes normally but produces no summary — it prints a
not-found message and returns early, instead of returning a zero
summary. -/
theorem c4_amended (ord : List String → List String) (builtins : List String)
    (project_path : String) (tree : List FSEntry)
    (h : get_python_files project_path tree = []) :
    mainScan ord builtins project_path tree = none := by
  unfold mainScan
  rw [h]
  rfl

/-- C4 witness: a directory holding only a non-matching file yields no
summary. -/
theorem c4_witness :
    mainScan id [] "proj" [.file "notes.txt" ⟨.ioError, .ok, none⟩] = none :=
  c4_amended id [] "proj" [.file "notes.txt" ⟨.ioError, .ok, none⟩]
    (by simp [get_python_files, walkSubdirs]; decide)

/-- C5: the syntax validator returns no diagnostic on successful
compilation; on failure it returns exactly one diagnostic whose file is
the input path and whose message is the parse error's message, and —
given that the underlying parser reports a positive failing line — its
line field is a positive line number (never both outcomes, and only the
single error the compiler raised is reported). -/
theorem c5_syntax_validator (file_path : String) (r : CompileResult) :
    (r = .ok → check_syntax file_path r = none) ∧
      (∀ lineno msg, r = .err lineno msg →
        check_syntax file_path r = some ⟨file_path, .num lineno, msg⟩ ∧
          (1 ≤ lineno → ∃ n, 1 ≤ n ∧
            (⟨file_path, .num lineno, msg⟩ : Diagnostic).line = .num n)) := by
  refine ⟨fun h => by rw [h]; rfl, fun lineno msg h => ⟨by rw [h]; rfl, ?_⟩⟩
  exact fun hpos => ⟨lineno, hpos, rfl⟩

/-- C5 witness: success yields nothing; a failure at line 2 yields one
diagnostic with that path, line and message. -/
theorem c5_witness :
    check_syntax "ok.py" .ok = none ∧
      check_syntax "bad.py" (.err 2 "unexpected indent") =
        some ⟨"bad.py", .num 2, "unexpected indent"⟩ ∧
      (∃ n, 1 ≤ n ∧
        (⟨"bad.py", .num 2, "unexpected indent"⟩ : Diagnostic).line = .num n) :=
  ⟨(c5_syntax_validator "ok.py" .ok).1 rfl,
    ((c5_syntax_validator "bad.py" (.err 2 "unexpected indent")).2 2
      "unexpected indent" rfl).1,
    ((c5_syntax_validator "bad.py" (.err 2 "unexpected indent")).2 2
      "unexpected indent" rfl).2 (by decide)⟩

/-- C6: whenever the scan returns a summary, its file count equals the
number of matching-extension files reachable by the recursive walk, and
its total line count is the sum of the per-file line counts of every
discovered file — the line counter runs on every discovered file,
including ones that fail to parse. -/
theorem c6_summary_counts (ord : List String → List String)
    (builtins : List String) (project_path : String) (tree : List FSEntry)
    (s : ScanSummary) (h : mainScan ord builtins project_path tree = some s) :
    s.file_count = listPyCount tree ∧
      s.file_count = (get_python_files project_path tree).length ∧
      s.total_lines = ((get_python_files project_path tree).map
        (fun f => count_lines f.2.raw)).sum := by
  unfold mainScan at h
  by_cases he : (get_python_files project_path tree).isEmpty
  · rw [if_pos he] at h
    exact absurd h (fun hc => Option.noConfusion hc)
  · rw [if_neg he] at h
    have hs := Option.some.inj h
    subst hs
    exact ⟨get_python_files_length project_path tree, rfl, rfl⟩

/-- A concrete snapshot for the C6 witness: `a.py` has two lines and is
clean, `pkg/b.py` has one line and fails to compile, `readme.md` does
not match the extension. -/
def c6tree : List FSEntry :=
  [.file "a.py" ⟨.ok [some (Char.ofNat 120), some nl, some (Char.ofNat 121)], .ok, some []⟩,
   .dir "pkg" [.file "b.py" ⟨.ok [some (Char.ofNat 122)], .err 1 "bad", none⟩],
   .file "readme.md" ⟨.ioError, .ok, none⟩]

/-- C6 witness: the snapshot yields file count 2 (the walk finds both
`.py` files and skips `readme.md`) and total lines 3 (2 + 1, the
failing file included). -/
theorem c6_witness :
    ((⟨2, 3, [⟨"proj/pkg/b.py", .num 1, "bad"⟩]⟩ : ScanSummary).file_count =
        listPyCount c6tree ∧
      (⟨2, 3, [⟨"proj/pkg/b.py", .num 1, "bad"⟩]⟩ : ScanSummary).file_count =
        (get_python_files "proj" c6tree).length ∧
      (⟨2, 3, [⟨"proj/pkg/b.py", .num 1, "bad"⟩]⟩ : ScanSummary).total_lines =
        ((get_python_files "proj" c6tree).map
          (fun f => count_lines f.2.raw)).sum) :=
  c6_summary_counts id [] "proj" c6tree ⟨2, 3, [⟨"proj/pkg/b.py", .num 1, "bad"⟩]⟩
    (by
      have ha : isPyName "a.py" = true := by decide
      have hb : isPyName "b.py" = true := by decide
      have hr : isPyName "readme.md" = false := by decide
      have hfiles : get_python_files "proj" c6tree =
          [("proj/a.py",
            ⟨.ok [some (Char.ofNat 120), some nl, some (Char.ofNat 121)], .ok, some []⟩),
           ("proj/pkg/b.py", ⟨.ok [some (Char.ofNat 122)], .err 1 "bad", none⟩)] := by
        simp [get_python_files, walkSubdirs, c6tree, pathJoin, ha, hb, hr]
      simp only [mainScan, hfiles]
      decide)

/-- C7: the line counter returns the number of newline-delimited
records of the decoded content; an I/O failure yields 0; and invalid
byte sequences are ignored — dropping them from the content does not
change the count. -/
theorem c7_count_lines (content : List (Option Char)) :
    count_lines .ioError = 0 ∧
      count_lines (.ok content) = recordCount (decodeIgnore content) ∧
      count_lines (.ok content) =
        count_lines (.ok (content.filter (fun b => b ≠ none))) := by
  refine ⟨rfl, pyReadlines_length (decodeIgnore content), ?_⟩
  have : decodeIgnore (content.filter (fun b => b ≠ none)) = decodeIgnore content := by
    induction content with
    | nil => rfl
    | cons b rest ih =>
        cases b with
        | none => simpa [decodeIgnore] using ih
        | some c => simpa [decodeIgnore] using ih
  rw [count_lines, count_lines, this]

/-- C8: two runs of the full scan over the same directory snapshot —
with possibly different iteration orders of the `used` set, the one
documented source of non-determinism — produce equivalent summaries:
the same file count, the same total lines, and pointwise-equivalent
diagnostics whose undefined-name lists are permutations of one
another. -/
theorem c8_idempotent {ord₁ ord₂ : List String → List String}
    (h₁ : ∀ l, (ord₁ l).Perm l) (h₂ : ∀ l, (ord₂ l).Perm l)
    (builtins : List String) (project_path : String) (tree : List FSEntry) :
    scanEquiv (mainScan ord₁ builtins project_path tree)
      (mainScan ord₂ builtins project_path tree) :=
  mainScan_equiv h₁ h₂ builtins project_path tree

/-- A concrete snapshot for the C8 witness: one file with two undefined
names, so that the two enumeration orders differ. -/
def c8tree : List FSEntry :=
  [.file "m.py" ⟨.ok [some (Char.ofNat 120)], .ok,
    some [.exprStmt (.call (.name "foo" .load) [.name "bar" .load])]⟩]

/-- C8 witness: scanning the snapshot with the identity enumeration and
with the reversed enumeration yields equivalent summaries. -/
theorem c8_witness :
    scanEquiv (mainScan id [] "proj" c8tree)
      (mainScan List.reverse [] "proj" c8tree) :=
  c8_idempotent (fun l => List.Perm.refl l) (fun l => List.reverse_perm l)
    [] "proj" c8tree

/-- C9: an aliased import binds (the first path segment of) the
original imported name, never the alias — `import a.b as c` binds the
first segment of `a.b` and `from m import x as y` binds `x` — so a file
that only loads the alias reports the alias as undefined when it is not
a builtin (nor a dunder name, nor equal to the bound segment). -/
theorem c9_alias_not_bound (st : AState) (n al modname : String) :
    (visit (.importStmt [(n, some al)]) st).defined =
        addName (firstSeg n) st.defined ∧
      (visit (.importFrom modname [(n, some al)]) st).defined =
        addName n st.defined ∧
      (∀ ord, (∀ l, (ord l).Perm l) → ∀ builtins : List String,
        al ∉ builtins → isDunder al = false → al ≠ firstSeg n →
        find_undefined_names ord builtins
          (some [.importStmt [(n, some al)],
            .exprStmt (.name al .load)]) = [al]) := by
  refine ⟨rfl, rfl, fun ord hord builtins hb hd hne => ?_⟩
  have hst : runAnalyzer [.importStmt [(n, some al)],
      .exprStmt (.name al .load)] = ⟨[firstSeg n], [al]⟩ := by
    simp [runAnalyzer, visitList, visit, importAdd, addDefined, addUsed, addName]
  rw [find_undefined_names, hst]
  have hord1 : ord [al] = [al] := List.perm_singleton.mp (hord [al])
  rw [hord1]
  have hf : undefFilter [firstSeg n] builtins al = true := by
    rw [undefFilter_eq_true]
    exact ⟨by simpa using hne, hb, hd⟩
  simp [List.filter_cons, hf]

/-- C9 witness: `import os.path as p` followed by a load of `p` binds
`os` and reports `p` as undefined. -/
theorem c9_witness :
    (visit (.importStmt [("os.path", some "p")]) ⟨[], []⟩).defined =
        addName (firstSeg "os.path") [] ∧
      find_undefined_names id ["print"]
        (some [.importStmt [("os.path", some "p")],
          .exprStmt (.name "p" .load)]) = ["p"] :=
  ⟨(c9_alias_not_bound ⟨[], []⟩ "os.path" "p" "m").1,
    (c9_alias_not_bound ⟨[], []⟩ "os.path" "p" "m").2.2 id
      (fun l => List.Perm.refl l) ["print"] (by decide) (by decide) (by decide)⟩

/-- C10: function parameters are never binding sites: visiting a
function definition ignores the parameter list entirely (any two
parameter lists give the same traversal result, which just binds the
function name and walks the body), so a parameter read in load context
inside the body lands in the use set only and is reported as undefined
when it is neither a builtin, nor a dunder name, nor the function's own
name. -/
theorem c10_params_not_bound (f p : String) (body : List Node) (st : AState) :
    (∀ params₁ params₂ : List String,
        visit (.functionDef f params₁ body) st =
          visit (.functionDef f params₂ body) st) ∧
      (∀ params, visit (.functionDef f params body) st =
        visitList body (addDefined f st)) ∧
      (∀ ord, (∀ l, (ord l).Perm l) → ∀ builtins : List String, ∀ params,
        p ∉ builtins → isDunder p = false → p ≠ f →
        find_undefined_names ord builtins
          (some [.functionDef f params [.exprStmt (.name p .load)]]) = [p]) := by
  refine ⟨fun params₁ params₂ => rfl, fun params => rfl,
    fun ord hord builtins params hb hd hne => ?_⟩
  have hst : runAnalyzer [.functionDef f params [.exprStmt (.name p .load)]] =
      ⟨[f], [p]⟩ := by
    simp [runAnalyzer, visitList, visit, addDefined, addUsed, addName]
  rw [find_undefined_names, hst]
  have hord1 : ord [p] = [p] := List.perm_singleton.mp (hord [p])
  rw [hord1]
  have hf : undefFilter [f] builtins p = true := by
    rw [undefFilter_eq_true]
    exact ⟨by simpa using hne, hb, hd⟩
  simp [List.filter_cons, hf]

/-- C10 witness: `def f(data): data` places `data` in the use set only
and reports it as undefined. -/
theorem c10_witness :
    find_undefined_names id ["print"]
      (some [.functionDef "f" ["data"]
        [.exprStmt (.name "data" .load)]]) = ["data"] :=
  (c10_params_not_bound "f" "data" [.exprStmt (.name "data" .load)]
      ⟨[], []⟩).2.2 id (fun l => List.Perm.refl l) ["print"] ["data"]
    (by decide) (by decide) (by decide)
